import Mathlib

/-!
Verification of the Speech Queue Coordinator (`EnhancedTTSClient`).

The development shallowly embeds the TTS client: the text enhancer and
voice selector become pure Lean functions, and the queue coordinator with
its external synthesis engine becomes an executable transition system
(`step` / `run`) over `TTSState`, with events for the public operations
(`speak`, `stop`, `setVoice`), the engine voice-catalog updates, and the
engine playback callbacks (`onend`, `onerror`, deferred timer callbacks).
Ghost fields (`enqueued`, `played`) record the order of coordinator
submissions and engine submissions for the ordering theorems.
-/

namespace TTS

/-- The apostrophe character, used inside the tone templates. -/
def apos : String := String.mk [Char.ofNat 39]

/-- A voice descriptor, as exposed by the engine voice catalog
(`{name, lang, localService, default}`). -/
structure Voice where
  name : String
  lang : String
  localService : Bool
  isDefault : Bool
deriving DecidableEq, Repr

/-- The emotional tones appearing in `emotionalContexts`. -/
inductive Tone where
  | friendly | grateful | apologetic | urgentTone | polite | warm | positive | concerned
deriving DecidableEq, Repr

/-- An entry of `emotionalContexts`: acoustic parameters and a tone.
Rate/pitch/volume are stored in hundredths (the source uses decimal
literals such as `0.9`, represented here exactly as `90`). -/
structure EmotionalContext where
  rate : Nat
  pitch : Nat
  volume : Nat
  tone : Tone
deriving DecidableEq, Repr

/-- `this.emotionalContexts`: mapping from sign tag to context. -/
def emotionalContexts : String → Option EmotionalContext
  | "hello" => some ⟨100, 110, 95, .friendly⟩
  | "thank_you" => some ⟨80, 90, 85, .grateful⟩
  | "sorry" => some ⟨70, 80, 80, .apologetic⟩
  | "help" => some ⟨90, 100, 95, .urgentTone⟩
  | "please" => some ⟨80, 90, 85, .polite⟩
  | "love" => some ⟨75, 95, 90, .warm⟩
  | "good" => some ⟨95, 105, 90, .positive⟩
  | "bad" => some ⟨85, 90, 85, .concerned⟩
  | _ => none

/-- The tone-template switch of `enhanceTextForSpeech`: each tone wraps the
text in one fixed template, interpolating the text verbatim. -/
def toneWrap (tone : Tone) (t : String) : String :=
  match tone with
  | .friendly => "Hello there! " ++ t
  | .grateful => t ++ ". I really appreciate it."
  | .apologetic => "I" ++ apos ++ "m " ++ t ++ ". Please forgive me."
  | .urgentTone => "I need " ++ t ++ ". Can you help me?"
  | .polite => t ++ ". Would that be possible?"
  | .warm => "I " ++ t ++ " you so much."
  | .positive => "That" ++ apos ++ "s " ++ t ++ "! Excellent!"
  | .concerned => "That" ++ apos ++ "s " ++ t ++ ". I" ++ apos ++ "m worried about this."

/-- Step 1 of `enhanceTextForSpeech`: if the sign type has an emotional
context, apply its tone template once; otherwise leave the text unchanged. -/
def toneStep (text : String) (signType : Option String) : String :=
  match signType with
  | none => text
  | some g =>
    match emotionalContexts g with
    | none => text
    | some ctx => toneWrap ctx.tone text

/-- Global single-character replacement, the semantics of the source
`String.prototype.replace` with a one-character global regex: each
occurrence of `c` is replaced by `r`, and replacements are not rescanned. -/
def replaceChar (c : Char) (r : List Char) : List Char → List Char
  | [] => []
  | x :: xs => (if x = c then r else [x]) ++ replaceChar c r xs

/-- Step 2 of `enhanceTextForSpeech`: the three sequential replacements
`.` ↦ `"... "`, `!` ↦ `"! "`, `?` ↦ `"? "`, in source order. -/
def addPauses (s : String) : String :=
  String.mk (replaceChar '?' ['?', ' ']
    (replaceChar '!' ['!', ' ']
      (replaceChar '.' ['.', '.', '.', ' '] s.toList)))

/-- `enhanceTextForSpeech(text, signType)`: tone wrapping, then
punctuation expansion of the already-wrapped text. -/
def enhanceTextForSpeech (text : String) (signType : Option String) : String :=
  addPauses (toneStep text signType)

/-- Contiguous-sublist test on character lists. -/
def charsInfix (pat : List Char) : List Char → Bool
  | [] => pat.isEmpty
  | c :: cs => pat.isPrefixOf (c :: cs) || charsInfix pat cs

/-- Substring test, the semantics of `String.prototype.includes`. -/
def jsIncludes (s sub : String) : Bool :=
  charsInfix sub.toList s.toList

/-- ASCII lowercasing of one character, the behaviour of
`String.prototype.toLowerCase` on the ASCII voice names involved. -/
def lowerChar (c : Char) : Char :=
  if 65 ≤ c.toNat ∧ c.toNat ≤ 90 then Char.ofNat (c.toNat + 32) else c

/-- `String.prototype.toLowerCase` on ASCII strings. -/
def lowerStr (s : String) : String :=
  String.mk (s.toList.map lowerChar)

/-- `String.prototype.startsWith`. -/
def strStartsWith (s p : String) : Bool :=
  p.toList.isPrefixOf s.toList

/-- The ordered preference list of `selectBestVoice`. -/
def preferredVoices : List String :=
  ["Google US English",
   "Microsoft Zira - English (United States)",
   "Microsoft David - English (United States)",
   "Alex", "Samantha", "Karen", "Moira"]

/-- The preferred-voice loop of `selectBestVoice`: for each preferred name
in order, find the first catalog voice whose name contains it (directly or
case-insensitively). -/
def findPreferred (voices : List Voice) : List String → Option Voice
  | [] => none
  | p :: ps =>
    match voices.find? (fun v =>
        jsIncludes v.name p || jsIncludes (lowerStr v.name) (lowerStr p)) with
    | some v => some v
    | none => findPreferred voices ps

/-- `selectBestVoice`: preferred names first, then the first local English
voice, then the first catalog entry (none when the catalog is empty). -/
def selectBestVoice (voices : List Voice) : Option Voice :=
  match findPreferred voices preferredVoices with
  | some v => some v
  | none =>
    match voices.find? (fun v => strStartsWith v.lang "en" && v.localService) with
    | some v => some v
    | none => voices.head?

/-- A speech item as built in `speak`:
`{ text, signType, priority, timestamp }`. -/
structure SpeechItem where
  text : String
  signType : Option String
  priority : String
  timestamp : Nat
deriving DecidableEq, Repr

/-- `this.voiceSettings` (rate/pitch/volume in hundredths,
`pauseBetween` in milliseconds). -/
structure Settings where
  rate : Nat
  pitch : Nat
  volume : Nat
  pauseBetween : Nat
deriving DecidableEq, Repr

/-- A materialized playback request (`SpeechSynthesisUtterance`): enhanced
text, attached voice, and acoustic parameters. -/
structure Utterance where
  text : String
  voice : Option Voice
  rate : Nat
  pitch : Nat
  volume : Nat
deriving DecidableEq, Repr

/-- `createUtterance`: enhance the text, attach the current voice, and use
the emotional context parameters when the sign type has one, else the
default settings. -/
def createUtterance (currentVoice : Option Voice) (settings : Settings)
    (text : String) (signType : Option String) : Utterance :=
  let enhanced := enhanceTextForSpeech text signType
  match signType with
  | some g =>
    match emotionalContexts g with
    | some ctx => ⟨enhanced, currentVoice, ctx.rate, ctx.pitch, ctx.volume⟩
    | none => ⟨enhanced, currentVoice, settings.rate, settings.pitch, settings.volume⟩
  | none => ⟨enhanced, currentVoice, settings.rate, settings.pitch, settings.volume⟩

/-- An engine-side playback request: its identity, its utterance, and
whether `synthesis.cancel()` has been called on it. A request stays in the
pending set until its completion or error callback is delivered, so a
cancelled request can still deliver a late callback. -/
structure EngineReq where
  id : Nat
  utt : Utterance
  cancelled : Bool
deriving DecidableEq, Repr

/-- The full coordinator-plus-engine state. `catalog` is the engine-side
voice list returned by `synthesis.getVoices()`; the fields from `voices`
to `isSpeaking` mirror the `EnhancedTTSClient` instance fields;
`waitingInit` holds `speak` calls suspended at `await this.initialize()`
(each on its own `initialize()` promise with its own polling loop);
`pending` and `timers` model the engine requests and the `setTimeout` of
`onend`; `enqueued` and `played` are ghost logs of coordinator
submissions and engine submissions. -/
structure TTSState where
  catalog : List Voice
  voices : List Voice
  currentVoice : Option Voice
  isInitialized : Bool
  speechQueue : List SpeechItem
  isSpeaking : Bool
  voiceSettings : Settings
  waitingInit : List SpeechItem
  pending : List EngineReq
  timers : Nat
  nextId : Nat
  enqueued : List SpeechItem
  played : List SpeechItem
deriving DecidableEq, Repr

/-- The constructor state of `EnhancedTTSClient` (before any voices load). -/
def initialState : TTSState :=
  { catalog := [], voices := [], currentVoice := none, isInitialized := false,
    speechQueue := [], isSpeaking := false,
    voiceSettings := ⟨90, 100, 90, 500⟩,
    waitingInit := [], pending := [], timers := 0, nextId := 0,
    enqueued := [], played := [] }

/-- `processQueue`: no-op when the queue is empty or a playback is marked
in flight; otherwise mark speaking, shift the queue head, build its
utterance, and submit it to the engine as a fresh request. -/
def processQueue (s : TTSState) : TTSState :=
  match s.speechQueue with
  | [] => s
  | item :: rest =>
    if s.isSpeaking then s
    else
      { s with isSpeaking := true, speechQueue := rest,
               pending := s.pending ++
                 [⟨s.nextId, createUtterance s.currentVoice s.voiceSettings
                     item.text item.signType, false⟩],
               nextId := s.nextId + 1,
               played := s.played ++ [item] }

/-- The urgent-priority preemption block of `speak`: cancel all engine
requests, clear the queue, reset `isSpeaking`. -/
def preempt (s : TTSState) : TTSState :=
  { s with pending := s.pending.map (fun r => { r with cancelled := true }),
           speechQueue := [], isSpeaking := false }

/-- `this.speechQueue.push(speechItem)`. -/
def pushItem (s : TTSState) (item : SpeechItem) : TTSState :=
  { s with speechQueue := s.speechQueue ++ [item] }

/-- `if (!this.isSpeaking) this.processQueue()`. -/
def tryStart (s : TTSState) : TTSState :=
  if s.isSpeaking then s else processQueue s

/-- The body of `speak` after the initialization await: urgent preemption
(cancel all engine requests, clear the queue, reset `isSpeaking`), then
push the item and run `processQueue` when not speaking. -/
def speakBody (s : TTSState) (item : SpeechItem) : TTSState :=
  tryStart (pushItem (if item.priority = "urgent" then preempt s else s) item)

/-- The `speak` operation: when initialized it runs `speakBody` at once;
otherwise the call suspends on `await this.initialize()` and the item is
parked in `waitingInit` until the voice catalog becomes non-empty. The
ghost `enqueued` log records the call either way. -/
def speakOp (s : TTSState) (text : String) (signType : Option String)
    (priority : String) (now : Nat) : TTSState :=
  if s.isInitialized then
    speakBody { s with enqueued := s.enqueued ++ [⟨text, signType, priority, now⟩] }
      ⟨text, signType, priority, now⟩
  else
    { s with waitingInit := s.waitingInit ++ [⟨text, signType, priority, now⟩],
             enqueued := s.enqueued ++ [⟨text, signType, priority, now⟩] }

/-- `stop()`: cancel all engine requests, clear the queue, reset
`isSpeaking`. -/
def stopOp (s : TTSState) : TTSState :=
  { s with pending := s.pending.map (fun r => { r with cancelled := true }),
           speechQueue := [], isSpeaking := false }

/-- `setVoice(name)`: exact-name lookup; on a match replace `currentVoice`
and return true, otherwise return false and leave the state unchanged. -/
def setVoiceOp (s : TTSState) (name : String) : Bool × TTSState :=
  match s.voices.find? (fun v => v.name == name) with
  | some v => (true, { s with currentVoice := some v })
  | none => (false, s)

/-- One run of the `loadVoices` body against the current engine catalog:
snapshot `getVoices()` into `this.voices`; when non-empty, run
`selectBestVoice` and mark the client initialized (otherwise the loop
re-arms its 100 ms timer, with no further state change). -/
def loadVoices (s : TTSState) : TTSState :=
  if s.catalog.isEmpty then { s with voices := s.catalog }
  else { s with voices := s.catalog, currentVoice := selectBestVoice s.catalog,
                isInitialized := true }

/-- A voice-catalog event: the engine catalog becomes `cat`, and one
`loadVoices` run fires (the constructor `initialize()`'s poll, or the
currently registered `onvoiceschanged` handler). It does not resume
parked `speak` calls: each of those awaits its own `initialize()` promise
with its own polling loop, resumed separately by `resumeEv`. -/
def catalogEvent (s : TTSState) (cat : List Voice) : TTSState :=
  loadVoices { s with catalog := cat }

/-- Resumption of the `k`-th parked `speak` call: its own `initialize()`
polling loop fires and observes the current catalog. With an empty
catalog the poll just re-arms (no state change); otherwise its
`loadVoices` run completes initialization, the promise resolves, and the
parked call's body runs. Parked calls poll on independent timers, so any
index `k` may resume first: resumption order need not be call order. -/
def resumeEvent (s : TTSState) (k : Nat) : TTSState :=
  if s.catalog.isEmpty then s
  else
    match s.waitingInit[k]? with
    | none => s
    | some item =>
      speakBody (loadVoices { s with waitingInit := s.waitingInit.eraseIdx k }) item

/-- Delivery of the `onend` callback of pending request `i`: reset
`isSpeaking` and schedule `processQueue` behind the `pauseBetween`
`setTimeout` (modelled by the `timers` counter). The handler performs no
identity check. -/
def fireEnd (s : TTSState) (i : Nat) : TTSState :=
  if s.pending.any (fun r => r.id == i) then
    { s with pending := s.pending.filter (fun r => r.id != i),
             isSpeaking := false, timers := s.timers + 1 }
  else s

/-- Delivery of the `onerror` callback of pending request `i`: reset
`isSpeaking` and run `processQueue` at once. The handler performs no
identity check. -/
def fireError (s : TTSState) (i : Nat) : TTSState :=
  if s.pending.any (fun r => r.id == i) then
    processQueue
      { s with pending := s.pending.filter (fun r => r.id != i),
               isSpeaking := false }
  else s

/-- Firing of a pending `setTimeout(processQueue, pauseBetween)`. -/
def fireTimer (s : TTSState) : TTSState :=
  if s.timers = 0 then s
  else processQueue { s with timers := s.timers - 1 }

/-- The events of the coordinator-engine system: the public operations,
the catalog updates, the resumptions of parked `speak` calls, and the
engine callbacks. -/
inductive Event where
  | speakEv (text : String) (signType : Option String) (priority : String) (now : Nat)
  | stopEv
  | setVoiceEv (name : String)
  | catalogEv (cat : List Voice)
  | resumeEv (k : Nat)
  | onendEv (i : Nat)
  | onerrorEv (i : Nat)
  | timerEv
deriving DecidableEq, Repr

/-- One step of the system. -/
def step (s : TTSState) : Event → TTSState
  | .speakEv t g p n => speakOp s t g p n
  | .stopEv => stopOp s
  | .setVoiceEv n => (setVoiceOp s n).2
  | .catalogEv c => catalogEvent s c
  | .resumeEv k => resumeEvent s k
  | .onendEv i => fireEnd s i
  | .onerrorEv i => fireError s i
  | .timerEv => fireTimer s

/-- A run of the system from a state through a list of events. -/
def run (s : TTSState) (evs : List Event) : TTSState :=
  evs.foldl step s

/-- `getStatus()` snapshot. -/
structure Status where
  isInitialized : Bool
  isSpeaking : Bool
  queueLength : Nat
  currentVoice : Option String
  settings : Settings
deriving DecidableEq, Repr

/-- `getStatus`: the read-only status snapshot. -/
def getStatus (s : TTSState) : Status :=
  ⟨s.isInitialized, s.isSpeaking, s.speechQueue.length,
   s.currentVoice.map Voice.name, s.voiceSettings⟩

/-- The engine requests still active: submitted, not cancelled, callback
not yet delivered. -/
def activeReqs (s : TTSState) : List EngineReq :=
  s.pending.filter (fun r => !r.cancelled)

/-- Events allowed in an all-normal run: `speak` only with priority
`"normal"`, no `stop`, and any engine callback or catalog event. -/
def noPreempt : Event → Bool
  | .speakEv _ _ p _ => p == "normal"
  | .stopEv => false
  | _ => true

/-- The post-initialization FIFO invariant: the client is initialized, no
`speak` call is parked, and the engine submission log followed by the
queue spells out the coordinator submission order. -/
def postInitInv (s : TTSState) : Prop :=
  s.isInitialized = true ∧ s.waitingInit = [] ∧
  s.played ++ s.speechQueue = s.enqueued

/-- The engine-visible content of a speech item: its text and sign type
(the only fields `createUtterance` reads; priority and timestamp are
never read again once the item is queued). -/
def itemObs (i : SpeechItem) : String × Option String :=
  (i.text, i.signType)

/-- The observable part of a state: everything except the dead priority
and timestamp fields of the logged items. -/
structure Obs where
  catalog : List Voice
  voices : List Voice
  currentVoice : Option Voice
  isInitialized : Bool
  isSpeaking : Bool
  speechQueue : List (String × Option String)
  voiceSettings : Settings
  waitingInit : List SpeechItem
  pending : List EngineReq
  timers : Nat
  nextId : Nat
  played : List (String × Option String)
deriving DecidableEq, Repr

/-- Observation map from states. -/
def observe (s : TTSState) : Obs :=
  ⟨s.catalog, s.voices, s.currentVoice, s.isInitialized, s.isSpeaking,
   s.speechQueue.map itemObs, s.voiceSettings, s.waitingInit, s.pending,
   s.timers, s.nextId, s.played.map itemObs⟩

/-- A concrete catalog voice with no preferred-name match, local English. -/
def vA : Voice := ⟨"VoiceA", "en-US", true, false⟩

/-- A second concrete catalog voice. -/
def vB : Voice := ⟨"VoiceB", "en-GB", true, false⟩

/-- A concrete two-voice catalog; `selectBestVoice` picks `vA`. -/
def demoCatalog : List Voice := [vA, vB]

/-- An initialized, idle coordinator with the demo catalog. -/
def demoState : TTSState :=
  run initialState [Event.catalogEv demoCatalog]

/-- Initialization, a normal item "A", then an urgent item "B" submitted
while "A" is mid-playback: "A"'s engine request is cancelled but still
pending, and "B" is in flight. -/
def staleTrace : List Event :=
  [Event.catalogEv demoCatalog, Event.speakEv "A" none "normal" 0,
   Event.speakEv "B" none "urgent" 1]

/-- An all-normal run after initialization: two items, one completion,
one pause timer. -/
def fifoTail : List Event :=
  [Event.speakEv "A" none "normal" 0, Event.speakEv "B" none "normal" 1,
   Event.onendEv 0, Event.timerEv]

/-- An all-normal run in which "A" is submitted before initialization
completes: "A" parks on its own `initialize()` poll, the catalog then
loads (without resolving "A"'s promise), "B" is submitted and goes
straight to the engine, and only then does "A"'s poll fire. -/
def overtakeTrace : List Event :=
  [Event.speakEv "A" none "normal" 0, Event.catalogEv demoCatalog,
   Event.speakEv "B" none "normal" 1, Event.resumeEv 0]

/-- `processQueue` leaves every field except the queue, the speaking flag,
the pending requests, the request counter and the played log unchanged. -/
theorem processQueue_frame (s : TTSState) :
    (processQueue s).voices = s.voices ∧
    (processQueue s).currentVoice = s.currentVoice ∧
    (processQueue s).isInitialized = s.isInitialized ∧
    (processQueue s).voiceSettings = s.voiceSettings ∧
    (processQueue s).waitingInit = s.waitingInit ∧
    (processQueue s).enqueued = s.enqueued ∧
    (processQueue s).timers = s.timers := by
  unfold processQueue
  split
  · exact ⟨rfl, rfl, rfl, rfl, rfl, rfl, rfl⟩
  · split
    · exact ⟨rfl, rfl, rfl, rfl, rfl, rfl, rfl⟩
    · exact ⟨rfl, rfl, rfl, rfl, rfl, rfl, rfl⟩

/-- `processQueue` moves items from the queue head to the played log:
the concatenation of the played log and the queue is preserved. -/
theorem processQueue_ghost (s : TTSState) :
    (processQueue s).played ++ (processQueue s).speechQueue =
      s.played ++ s.speechQueue := by
  unfold processQueue
  split
  · rfl
  next item rest heq =>
    split
    · rfl
    · simp [heq]

/-- `tryStart` leaves every field except the queue, the speaking flag,
the pending requests, the request counter and the played log unchanged. -/
theorem tryStart_frame (s : TTSState) :
    (tryStart s).voices = s.voices ∧
    (tryStart s).currentVoice = s.currentVoice ∧
    (tryStart s).isInitialized = s.isInitialized ∧
    (tryStart s).voiceSettings = s.voiceSettings ∧
    (tryStart s).waitingInit = s.waitingInit ∧
    (tryStart s).enqueued = s.enqueued := by
  unfold tryStart
  split
  · exact ⟨rfl, rfl, rfl, rfl, rfl, rfl⟩
  · exact ⟨(processQueue_frame s).1, (processQueue_frame s).2.1,
      (processQueue_frame s).2.2.1, (processQueue_frame s).2.2.2.1,
      (processQueue_frame s).2.2.2.2.1, (processQueue_frame s).2.2.2.2.2.1⟩

/-- `tryStart` preserves the played-log-plus-queue concatenation. -/
theorem tryStart_ghost (s : TTSState) :
    (tryStart s).played ++ (tryStart s).speechQueue =
      s.played ++ s.speechQueue := by
  unfold tryStart
  split
  · rfl
  · exact processQueue_ghost s

/-- `speakBody` leaves the catalog, voice, settings, initialization flag,
parked calls and submission log unchanged. -/
theorem speakBody_frame (s : TTSState) (item : SpeechItem) :
    (speakBody s item).voices = s.voices ∧
    (speakBody s item).currentVoice = s.currentVoice ∧
    (speakBody s item).isInitialized = s.isInitialized ∧
    (speakBody s item).voiceSettings = s.voiceSettings ∧
    (speakBody s item).waitingInit = s.waitingInit ∧
    (speakBody s item).enqueued = s.enqueued := by
  unfold speakBody
  split
  · have ht := tryStart_frame (pushItem (preempt s) item)
    exact ⟨ht.1, ht.2.1, ht.2.2.1, ht.2.2.2.1, ht.2.2.2.2.1, ht.2.2.2.2.2⟩
  · have ht := tryStart_frame (pushItem s item)
    exact ⟨ht.1, ht.2.1, ht.2.2.1, ht.2.2.2.1, ht.2.2.2.2.1, ht.2.2.2.2.2⟩

/-- For a normal-priority item, `speakBody` appends the item to the
played-log-plus-queue concatenation. -/
theorem speakBody_normal_ghost (s : TTSState) (item : SpeechItem)
    (hp : item.priority = "normal") :
    (speakBody s item).played ++ (speakBody s item).speechQueue =
      s.played ++ s.speechQueue ++ [item] := by
  unfold speakBody
  rw [if_neg (by rw [hp]; decide), tryStart_ghost]
  simp [pushItem]

/-- `loadVoices` changes only `voices`, `currentVoice` and
`isInitialized` (and never resets `isInitialized`). -/
theorem loadVoices_frame (s : TTSState) :
    (loadVoices s).catalog = s.catalog ∧
    (loadVoices s).speechQueue = s.speechQueue ∧
    (loadVoices s).isSpeaking = s.isSpeaking ∧
    (loadVoices s).voiceSettings = s.voiceSettings ∧
    (loadVoices s).waitingInit = s.waitingInit ∧
    (loadVoices s).pending = s.pending ∧
    (loadVoices s).timers = s.timers ∧
    (loadVoices s).enqueued = s.enqueued ∧
    (loadVoices s).played = s.played := by
  unfold loadVoices
  split
  · exact ⟨rfl, rfl, rfl, rfl, rfl, rfl, rfl, rfl, rfl⟩
  · exact ⟨rfl, rfl, rfl, rfl, rfl, rfl, rfl, rfl, rfl⟩

/-- `processQueue` preserves the post-initialization FIFO invariant. -/
theorem processQueue_postInit (s : TTSState) (h : postInitInv s) :
    postInitInv (processQueue s) := by
  obtain ⟨h1, h2, h3⟩ := h
  refine ⟨?_, ?_, ?_⟩
  · rw [(processQueue_frame s).2.2.1]
    exact h1
  · rw [(processQueue_frame s).2.2.2.2.1]
    exact h2
  · rw [processQueue_ghost, (processQueue_frame s).2.2.2.2.2.1]
    exact h3

/-- `speakBody` on a normal item, from an initialized state with no
parked calls whose log already accounts for the item, yields an
invariant state. -/
theorem speakBody_postInit (s : TTSState) (item : SpeechItem)
    (hp : item.priority = "normal") (h1 : s.isInitialized = true)
    (h2 : s.waitingInit = [])
    (h3 : s.played ++ s.speechQueue ++ [item] = s.enqueued) :
    postInitInv (speakBody s item) := by
  refine ⟨?_, ?_, ?_⟩
  · rw [(speakBody_frame s item).2.2.1]
    exact h1
  · rw [(speakBody_frame s item).2.2.2.2.1]
    exact h2
  · rw [speakBody_normal_ghost s item hp, (speakBody_frame s item).2.2.2.2.2]
    exact h3

/-- Every preemption-free event preserves the post-initialization FIFO
invariant. -/
theorem postInitInv_step (s : TTSState) (e : Event) (hinv : postInitInv s)
    (he : noPreempt e = true) : postInitInv (step s e) := by
  obtain ⟨h1, h2, h3⟩ := hinv
  cases e with
  | speakEv t g p n =>
    have hp : p = "normal" := eq_of_beq he
    subst hp
    show postInitInv (speakOp s t g "normal" n)
    unfold speakOp
    rw [if_pos h1]
    apply speakBody_postInit _ _ rfl
    · show s.isInitialized = true
      exact h1
    · show s.waitingInit = []
      exact h2
    · show s.played ++ s.speechQueue ++ [(⟨t, g, "normal", n⟩ : SpeechItem)] =
        s.enqueued ++ [⟨t, g, "normal", n⟩]
      rw [h3]
  | stopEv => simp [noPreempt] at he
  | setVoiceEv name =>
    show postInitInv (setVoiceOp s name).2
    unfold setVoiceOp
    split
    · exact ⟨h1, h2, h3⟩
    · exact ⟨h1, h2, h3⟩
  | catalogEv c =>
    show postInitInv (catalogEvent s c)
    unfold catalogEvent loadVoices
    split
    · exact ⟨h1, h2, h3⟩
    · exact ⟨rfl, h2, h3⟩
  | resumeEv k =>
    show postInitInv (resumeEvent s k)
    unfold resumeEvent
    split
    · exact ⟨h1, h2, h3⟩
    · split
      · exact ⟨h1, h2, h3⟩
      next item heq =>
        rw [h2] at heq
        simp at heq
  | onendEv i =>
    show postInitInv (fireEnd s i)
    unfold fireEnd
    split
    · exact ⟨h1, h2, h3⟩
    · exact ⟨h1, h2, h3⟩
  | onerrorEv i =>
    show postInitInv (fireError s i)
    unfold fireError
    split
    · exact processQueue_postInit _ ⟨h1, h2, h3⟩
    · exact ⟨h1, h2, h3⟩
  | timerEv =>
    show postInitInv (fireTimer s)
    unfold fireTimer
    split
    · exact ⟨h1, h2, h3⟩
    · exact processQueue_postInit _ ⟨h1, h2, h3⟩

/-- A preemption-free run from an invariant state ends in an invariant
state. -/
theorem postInitInv_run (evs : List Event) (s : TTSState) (hs : postInitInv s)
    (h : ∀ e ∈ evs, noPreempt e = true) : postInitInv (run s evs) := by
  induction evs generalizing s with
  | nil => exact hs
  | cons e es ih =>
    exact ih (step s e) (postInitInv_step s e hs (h e (List.mem_cons_self e es)))
      (fun e' he' => h e' (List.mem_cons_of_mem e he'))

/-- C1: the claim says a late callback of a request cancelled by an urgent
preemption is ignored. In the code it is not: after "A" is preempted by
urgent "B", request 0 ("A") is cancelled yet still pending, "B" is in
flight with `isSpeaking = true`, and delivering request 0's late `onend`
resets `isSpeaking` to false and schedules a `processQueue` timer — the
cancelled request's completion effect is acted upon. -/
theorem stale_callback_acted_upon :
    (run initialState staleTrace).isSpeaking = true ∧
    ((run initialState staleTrace).pending.filter (fun r => r.id == 0)).all
      (fun r => r.cancelled) = true ∧
    (step (run initialState staleTrace) (Event.onendEv 0)).isSpeaking = false ∧
    (step (run initialState staleTrace) (Event.onendEv 0)).timers = 1 := by
  decide

/-- C2: the claim says `isSpeaking` holds iff exactly one active engine
request exists and that no step submits while one is in flight. After the
urgent preemption of `staleTrace`, delivering the cancelled request's late
`onend` leaves one active request with `isSpeaking = false`, and a
subsequent normal `speak` submits a second request while the first is
still in flight: two active engine requests at once. -/
theorem two_active_requests_reachable :
    (activeReqs (run initialState (staleTrace ++ [Event.onendEv 0]))).length = 1 ∧
    (run initialState (staleTrace ++ [Event.onendEv 0])).isSpeaking = false ∧
    (activeReqs (run initialState
      (staleTrace ++ [Event.onendEv 0, Event.speakEv "C" none "normal" 2]))).length = 2 ∧
    (run initialState
      (staleTrace ++ [Event.onendEv 0, Event.speakEv "C" none "normal" 2])).isSpeaking
      = true := by
  decide

/-- C3 counterexample: an all-normal run in which "A" is submitted before
initialization completes. "A" parks on its own `initialize()` promise;
the catalog then loads without resolving that promise; "B", submitted
while initialized, goes straight to the engine; only afterwards does
"A"'s own poll fire and enqueue "A". Submission order to the coordinator
is A, B, but the engine receives B first and A second — FIFO fails. -/
theorem parked_call_overtaken :
    (∀ e ∈ overtakeTrace, noPreempt e = true) ∧
    (run initialState overtakeTrace).enqueued.map SpeechItem.text = ["A", "B"] ∧
    (run initialState overtakeTrace).played.map SpeechItem.text = ["B"] ∧
    (run initialState
      (overtakeTrace ++ [Event.onendEv 0, Event.timerEv])).played.map
        SpeechItem.text = ["B", "A"] := by
  decide

/-- C3 (amended): in every preemption-free run (all `speak` calls normal,
no `stop`) in which the voice catalog loads before the first `speak`
call, the engine submission log followed by the queue spells out exactly
the coordinator submission order: playback order equals submission order.
(A `speak` call made before initialization completes parks on its own
`initialize()` poll and may be overtaken, as `parked_call_overtaken`
shows.) -/
theorem normal_speech_fifo_after_init (cat : List Voice) (hc : cat ≠ [])
    (evs : List Event) (h : ∀ e ∈ evs, noPreempt e = true) :
    (run initialState (Event.catalogEv cat :: evs)).played ++
      (run initialState (Event.catalogEv cat :: evs)).speechQueue =
      (run initialState (Event.catalogEv cat :: evs)).enqueued := by
  have hbase : postInitInv (step initialState (Event.catalogEv cat)) := by
    show postInitInv (catalogEvent initialState cat)
    unfold catalogEvent loadVoices
    rw [if_neg (by simp [List.isEmpty_iff, hc])]
    exact ⟨rfl, rfl, rfl⟩
  exact (postInitInv_run evs (step initialState (Event.catalogEv cat)) hbase h).2.2

/-- Witness for C3 (amended): a concrete preemption-free run starting
with a catalog load. -/
theorem normal_speech_fifo_after_init_witness :
    (demoCatalog ≠ [] ∧ ∀ e ∈ fifoTail, noPreempt e = true) ∧
    ((run initialState (Event.catalogEv demoCatalog :: fifoTail)).played ++
      (run initialState (Event.catalogEv demoCatalog :: fifoTail)).speechQueue =
      (run initialState (Event.catalogEv demoCatalog :: fifoTail)).enqueued) :=
  ⟨⟨by decide, by decide⟩,
   normal_speech_fifo_after_init demoCatalog (by decide) fifoTail (by decide)⟩

/-- C4 counterexample: the claim expects
`enhance("I am happy.", "love") = "I I am happy... you so much... "`, but
the code keeps the space that followed the period in the wrapped text, so
the actual result has a double space after the first ellipsis. -/
theorem enhance_love_expected_string_wrong :
    enhanceTextForSpeech "I am happy." (some "love") ≠
      "I I am happy... you so much... " := by
  decide

/-- C4 (amended): `enhance` is deterministic and applies the tone template
exactly once to the verbatim text (Step 1), then expands punctuation of
the wrapped text (Step 2); `enhance("Hello","thank_you")` yields
`"Hello...  I really appreciate it... "` and
`enhance("I am happy.","love")` yields
`"I I am happy...  you so much... "` (each period becomes `"... "` while
the original following space is kept, hence the double spaces). -/
theorem enhance_examples :
    toneStep "I am happy." (some "love") = "I I am happy. you so much." ∧
    toneStep "Hello" (some "thank_you") = "Hello. I really appreciate it." ∧
    enhanceTextForSpeech "I am happy." (some "love") =
      "I I am happy...  you so much... " ∧
    enhanceTextForSpeech "Hello" (some "thank_you") =
      "Hello...  I really appreciate it... " := by
  decide

/-- C5 counterexample: the claim expects punctuation expansion of
`"Hi. Bye!"` to be exactly `"Hi... Bye! "`; the code's result keeps the
original space after the period, yielding a double space. -/
theorem punctuation_expected_string_wrong :
    enhanceTextForSpeech "Hi. Bye!" none ≠ "Hi... Bye! " := by
  decide

/-- C5 (amended): with no sign-type tag, punctuation expansion alone maps
`"Hi. Bye!"` to `"Hi...  Bye! "`: the period becomes an ellipsis plus a
space (the original following space is retained), and the exclamation
mark becomes itself plus a trailing space. -/
theorem punctuation_expansion_example :
    enhanceTextForSpeech "Hi. Bye!" none = "Hi...  Bye! " ∧
    addPauses "Hi. Bye!" = "Hi...  Bye! " := by
  decide

/-- C6 counterexample: after initialization succeeded and the caller
explicitly selected `VoiceB`, a further engine voice-catalog event re-runs
`loadVoices`/`selectBestVoice` (the `onvoiceschanged` handler stays
registered) and automatically resets `currentVoice` to `VoiceA` — an
automatic assignment after initialization, without any `setVoice` call. -/
theorem currentVoice_reassigned_after_init :
    (run initialState [Event.catalogEv demoCatalog,
      Event.setVoiceEv "VoiceB"]).isInitialized = true ∧
    (run initialState [Event.catalogEv demoCatalog,
      Event.setVoiceEv "VoiceB"]).currentVoice = some vB ∧
    (run initialState [Event.catalogEv demoCatalog, Event.setVoiceEv "VoiceB",
      Event.catalogEv demoCatalog]).currentVoice = some vA := by
  decide

/-- C6 (amended): `currentVoice` changes only through `setVoice`, through
a voice-catalog event, or through the resumption of a `speak` call parked
during initialization; every `loadVoices` run against a non-empty catalog
(a catalog event, or a parked call's own `initialize()` poll) re-runs
best-voice selection and reassigns `currentVoice` automatically, also
after initialization. -/
theorem currentVoice_change_sources (s : TTSState) (e : Event) :
    (step s e).currentVoice = s.currentVoice ∨
    (∃ name, e = Event.setVoiceEv name) ∨
    (∃ c, e = Event.catalogEv c ∧ c ≠ [] ∧
      (step s e).currentVoice = selectBestVoice c) ∨
    (∃ k, e = Event.resumeEv k ∧ s.catalog ≠ [] ∧
      (step s e).currentVoice = selectBestVoice s.catalog) := by
  cases e with
  | speakEv t g p n =>
    left
    show (speakOp s t g p n).currentVoice = s.currentVoice
    unfold speakOp
    split
    · exact (speakBody_frame _ _).2.1
    · rfl
  | stopEv => left; rfl
  | setVoiceEv name =>
    by_cases hv : (s.voices.find? (fun v => v.name == name)).isSome
    · right; left; exact ⟨name, rfl⟩
    · right; left; exact ⟨name, rfl⟩
  | catalogEv c =>
    by_cases hc : c = []
    · left
      subst hc
      rfl
    · right; right; left
      refine ⟨c, rfl, hc, ?_⟩
      show (catalogEvent s c).currentVoice = selectBestVoice c
      unfold catalogEvent loadVoices
      rw [if_neg (by simp [List.isEmpty_iff, hc])]
  | resumeEv k =>
    by_cases hcat : s.catalog = []
    · left
      show (resumeEvent s k).currentVoice = s.currentVoice
      unfold resumeEvent
      rw [if_pos (by simp [List.isEmpty_iff, hcat])]
    · cases hk : s.waitingInit[k]? with
      | none =>
        left
        show (resumeEvent s k).currentVoice = s.currentVoice
        unfold resumeEvent
        rw [if_neg (by simp [List.isEmpty_iff, hcat]), hk]
      | some item =>
        right; right; right
        refine ⟨k, rfl, hcat, ?_⟩
        show (resumeEvent s k).currentVoice = selectBestVoice s.catalog
        unfold resumeEvent
        rw [if_neg (by simp [List.isEmpty_iff, hcat]), hk]
        rw [(speakBody_frame
          (loadVoices { s with waitingInit := s.waitingInit.eraseIdx k }) item).2.1]
        unfold loadVoices
        rw [if_neg (by simp [List.isEmpty_iff, hcat])]
  | onendEv i =>
    left
    show (fireEnd s i).currentVoice = s.currentVoice
    unfold fireEnd
    split <;> rfl
  | onerrorEv i =>
    left
    show (fireError s i).currentVoice = s.currentVoice
    unfold fireError
    split
    · exact (processQueue_frame _).2.1
    · rfl
  | timerEv =>
    left
    show (fireTimer s).currentVoice = s.currentVoice
    unfold fireTimer
    split
    · rfl
    · exact (processQueue_frame _).2.1

/-- Witness for C6 (amended), at a concrete state and event. -/
theorem currentVoice_change_sources_witness :
    (step demoState Event.stopEv).currentVoice = demoState.currentVoice ∨
    (∃ name, Event.stopEv = Event.setVoiceEv name) ∨
    (∃ c, Event.stopEv = Event.catalogEv c ∧ c ≠ [] ∧
      (step demoState Event.stopEv).currentVoice = selectBestVoice c) ∨
    (∃ k, Event.stopEv = Event.resumeEv k ∧ demoState.catalog ≠ [] ∧
      (step demoState Event.stopEv).currentVoice = selectBestVoice demoState.catalog) :=
  currentVoice_change_sources demoState Event.stopEv

/-- C7: `setVoice` with a name that has no exact match returns false and
leaves the state (hence the status snapshot) unchanged; with an exact
match it returns true and replaces `currentVoice` with the found entry. -/
theorem setVoice_correct (s : TTSState) (name : String) :
    (s.voices.find? (fun w => w.name == name) = none →
      setVoiceOp s name = (false, s) ∧
      getStatus (setVoiceOp s name).2 = getStatus s) ∧
    (∀ v, s.voices.find? (fun w => w.name == name) = some v →
      setVoiceOp s name = (true, { s with currentVoice := some v })) := by
  constructor
  · intro h
    unfold setVoiceOp
    rw [h]
    exact ⟨rfl, rfl⟩
  · intro v h
    unfold setVoiceOp
    rw [h]

/-- Witness for C7: the demo catalog has no entry named
`NonexistentVoiceXYZ`, and `VoiceB` matches exactly. -/
theorem setVoice_correct_witness :
    (demoState.voices.find? (fun w => w.name == "NonexistentVoiceXYZ") = none ∧
      setVoiceOp demoState "NonexistentVoiceXYZ" = (false, demoState) ∧
      getStatus (setVoiceOp demoState "NonexistentVoiceXYZ").2 = getStatus demoState) ∧
    (demoState.voices.find? (fun w => w.name == "VoiceB") = some vB ∧
      setVoiceOp demoState "VoiceB" = (true, { demoState with currentVoice := some vB })) :=
  ⟨⟨by decide, ((setVoice_correct demoState "NonexistentVoiceXYZ").1 (by decide)).1,
      ((setVoice_correct demoState "NonexistentVoiceXYZ").1 (by decide)).2⟩,
   ⟨by decide, (setVoice_correct demoState "VoiceB").2 vB (by decide)⟩⟩

/-- C8: after `stop()` the status reports not speaking and an empty
queue, from any prior state; and `stop` is idempotent — a second `stop`
produces exactly the same state. -/
theorem stop_clears_and_idempotent (s : TTSState) :
    (getStatus (stopOp s)).isSpeaking = false ∧
    (getStatus (stopOp s)).queueLength = 0 ∧
    stopOp (stopOp s) = stopOp s := by
  have hff : ((fun r : EngineReq => { r with cancelled := true }) ∘
      (fun r : EngineReq => { r with cancelled := true })) =
      (fun r : EngineReq => { r with cancelled := true }) :=
    funext fun r => rfl
  refine ⟨rfl, rfl, ?_⟩
  unfold stopOp
  rw [List.map_map, hff]

/-- Witness for C8, at a concrete state. -/
theorem stop_clears_and_idempotent_witness :
    (getStatus (stopOp demoState)).isSpeaking = false ∧
    (getStatus (stopOp demoState)).queueLength = 0 ∧
    stopOp (stopOp demoState) = stopOp demoState :=
  stop_clears_and_idempotent demoState

/-- C9 counterexample: with initialization incomplete (empty voice
catalog), a `speak` call does not enqueue the request — the queue stays
empty and nothing is submitted; the call is parked awaiting catalog
availability, contradicting "enqueues and returns without waiting on
catalog availability". -/
theorem speak_not_enqueued_uninitialized :
    initialState.isInitialized = false ∧
    (step initialState (Event.speakEv "Hello" none "normal" 0)).speechQueue = [] ∧
    (step initialState (Event.speakEv "Hello" none "normal" 0)).played = [] ∧
    (step initialState (Event.speakEv "Hello" none "normal" 0)).waitingInit =
      [⟨"Hello", none, "normal", 0⟩] := by
  decide

/-- C9 (amended): when the coordinator is initialized, `speak` processes
the request immediately (no parking; a normal-priority item lands at the
tail of the played-plus-queued order); when initialization has not
completed, `speak` suspends on `initialize()` and only parks the request,
which enters the queue only once the voice catalog turns non-empty. -/
theorem speak_initialization_gate (s : TTSState) (t : String)
    (g : Option String) (p : String) (n : Nat) :
    (s.isInitialized = false →
      speakOp s t g p n =
        { s with waitingInit := s.waitingInit ++ [⟨t, g, p, n⟩],
                 enqueued := s.enqueued ++ [⟨t, g, p, n⟩] }) ∧
    (s.isInitialized = true →
      (speakOp s t g p n).waitingInit = s.waitingInit ∧
      (speakOp s t g p n).enqueued = s.enqueued ++ [⟨t, g, p, n⟩] ∧
      (p = "normal" →
        (speakOp s t g p n).played ++ (speakOp s t g p n).speechQueue =
          s.played ++ s.speechQueue ++ [⟨t, g, p, n⟩])) := by
  constructor
  · intro h
    unfold speakOp
    rw [if_neg (by simp [h])]
  · intro h
    unfold speakOp
    rw [if_pos h]
    refine ⟨?_, ?_, ?_⟩
    · exact (speakBody_frame _ _).2.2.2.2.1
    · exact (speakBody_frame _ _).2.2.2.2.2
    · intro hp
      subst hp
      exact speakBody_normal_ghost _ _ rfl

/-- Witness for C9 (amended): both branches at concrete states. -/
theorem speak_initialization_gate_witness :
    (initialState.isInitialized = false ∧
      speakOp initialState "Hello" none "normal" 0 =
        { initialState with
            waitingInit := initialState.waitingInit ++ [⟨"Hello", none, "normal", 0⟩],
            enqueued := initialState.enqueued ++ [⟨"Hello", none, "normal", 0⟩] }) ∧
    (demoState.isInitialized = true ∧
      (speakOp demoState "Hello" none "normal" 0).waitingInit = demoState.waitingInit ∧
      (speakOp demoState "Hello" none "normal" 0).enqueued =
        demoState.enqueued ++ [⟨"Hello", none, "normal", 0⟩] ∧
      (speakOp demoState "Hello" none "normal" 0).played ++
          (speakOp demoState "Hello" none "normal" 0).speechQueue =
        demoState.played ++ demoState.speechQueue ++ [⟨"Hello", none, "normal", 0⟩]) :=
  ⟨⟨rfl, (speak_initialization_gate initialState "Hello" none "normal" 0).1 rfl⟩,
   ⟨rfl, ((speak_initialization_gate demoState "Hello" none "normal" 0).2 rfl).1,
     ((speak_initialization_gate demoState "Hello" none "normal" 0).2 rfl).2.1,
     ((speak_initialization_gate demoState "Hello" none "normal" 0).2 rfl).2.2 rfl⟩⟩

/-- On a pending list with no active request (every request already
cancelled), the cancel-all marking of `synthesis.cancel()` is the
identity. -/
theorem cancel_map_id (l : List EngineReq)
    (h : l.filter (fun r => !r.cancelled) = []) :
    l.map (fun r => { r with cancelled := true }) = l := by
  induction l with
  | nil => rfl
  | cons r rs ih =>
    rw [List.filter_cons] at h
    cases hc : r.cancelled with
    | false => simp [hc] at h
    | true =>
      simp only [hc, Bool.not_true] at h
      simp only [Bool.false_eq_true, if_false] at h
      rw [List.map_cons, ih h]
      cases r with
      | mk i u c =>
        have hcc : c = true := hc
        subst hcc
        rfl

/-- C10: from an initialized, idle state with an empty queue and no
active engine request, an urgent `speak` is observably equivalent to a
normal `speak` of the same text and sign type: the preemption steps are
no-ops there and the same single playback request is submitted. -/
theorem urgent_equals_normal_when_idle (s : TTSState) (t : String)
    (g : Option String) (n : Nat)
    (h1 : s.isInitialized = true) (h2 : s.isSpeaking = false)
    (h3 : s.speechQueue = []) (h4 : activeReqs s = []) :
    observe (speakOp s t g "urgent" n) = observe (speakOp s t g "normal" n) := by
  have hmap := cancel_map_id s.pending h4
  unfold speakOp
  rw [if_pos h1, if_pos h1]
  simp [speakBody, preempt, pushItem, tryStart, processQueue, observe, itemObs,
    h2, h3, hmap]

/-- Witness for C10, at the initialized idle demo state. -/
theorem urgent_equals_normal_when_idle_witness :
    (demoState.isInitialized = true ∧ demoState.isSpeaking = false ∧
      demoState.speechQueue = [] ∧ activeReqs demoState = []) ∧
    observe (speakOp demoState "X" none "urgent" 5) =
      observe (speakOp demoState "X" none "normal" 5) :=
  ⟨⟨by decide, by decide, by decide, by decide⟩,
   urgent_equals_normal_when_idle demoState "X" none 5
     (by decide) (by decide) (by decide) (by decide)⟩

end TTS

